import Mathlib

/-!
Verification of the tgbot-daily-budget reconciliation and prorated-balance
engine.

Shallow embedding of the budget core (`src/budget/Wallet.go` together with the
storage-layer pieces in `src/unnamed/part_000` that the core relies on: the
fixed `daysInMonth` table and `GetActualTransactions`).

Modelling conventions:
* Go `panic` sites are embedded as `Option`-valued functions returning `none`
  on the fatal path.
* Storage I/O is abstracted: the Redis store is modelled as the list of
  transactions it holds, with explicit boolean failure flags where a claim is
  about failure behaviour; scan/parse plumbing is dropped.
* `time.Time` is modelled as a second-granularity civil instant
  (year, month, day, second-of-day) ordered lexicographically, which agrees
  with ordering of Unix instants for valid dates. `AddDate(0, k, 0)` is
  modelled as month arithmetic with year carry; Go's day normalization never
  fires on the inputs used by the code (day-of-month is always ≤ 28 there).
* The `float32` intermediate of `calcMonthlyIncomeTillDate` followed by Go's
  `int(...)` conversion is idealized as exact rational arithmetic followed by
  truncation toward zero (`Int.tdiv`); at every concrete input appearing
  below the `float32` computation yields the same truncated integer.
* Go's `math.Abs(float64 v)` comparison of magnitudes is modelled with
  `Int.natAbs` (exact for all values below 2^53).
-/

/-- A civil instant at second granularity, standing in for Go's `time.Time`.
Ordering of valid instants coincides with Unix-seconds ordering. -/
structure Instant where
  year : Int
  month : Nat
  day : Nat
  sec : Nat
deriving DecidableEq, Repr

/-- Strict chronological order on instants (lexicographic on the fields),
the model of comparing the underlying Unix instants. -/
def Instant.ltB (a b : Instant) : Bool :=
  if a.year ≠ b.year then decide (a.year < b.year)
  else if a.month ≠ b.month then decide (a.month < b.month)
  else if a.day ≠ b.day then decide (a.day < b.day)
  else decide (a.sec < b.sec)

/-- Model of Go's `t.After(u)`. -/
def Instant.after (a b : Instant) : Bool := Instant.ltB b a

/-- Model of Go's `t.Before(u)`. -/
def Instant.before (a b : Instant) : Bool := Instant.ltB a b

/-- Model of Go's `t.AddDate(0, k, 0)`: shift by `k` calendar months with
year carry (floor division on the month counter, as `time.Date`'s
normalization performs). Day normalization is omitted: every call site in
the embedded code has day-of-month ≤ 28, where it never fires. -/
def Instant.addMonths (i : Instant) (k : Int) : Instant :=
  let months : Int := i.year * 12 + ((i.month : Int) - 1) + k
  { i with year := months / 12, month := (months % 12).toNat + 1 }

/-- The fixed day table of `src/unnamed/part_000` lines 12-23 (`daysInMonth`);
February is hard-coded to 28. A month outside 1..12 yields Go's map-miss
zero value. -/
def daysInMonth (m : Nat) : Nat :=
  match m with
  | 1 => 31
  | 2 => 28
  | 3 => 31
  | 4 => 30
  | 5 => 31
  | 6 => 30
  | 7 => 31
  | 8 => 31
  | 9 => 30
  | 10 => 31
  | 11 => 30
  | 12 => 31
  | _ => 0

/-- The month preceding `m`, as computed inline at `Wallet.go` lines 201-204
(`prevMonth := December; if t.Month() != January ...`). -/
def prevMonthOf (m : Nat) : Nat := if m = 1 then 12 else m - 1

/-- Type `RegularTransaction`: a planned recurring entry (value, day-of-month, label). -/
structure RegularTransaction where
  value : Int
  date : Nat
  label : String
deriving DecidableEq, Repr

/-- Type `ActualTransaction`: a realized cash-flow event. -/
structure ActualTransaction where
  value : Int
  time : Instant
  label : String
  rawText : String
deriving DecidableEq, Repr

/-- Embedding of `calcCurMonthBorders` (`Wallet.go` lines 101-114): the billing-window
resolver. `none` models the out-of-range panic. -/
def calcCurMonthBorders (walletMonthStartDay : Nat) (now : Instant) :
    Option (Instant × Instant) :=
  if walletMonthStartDay < 1 ∨ walletMonthStartDay > 28 then none
  else
    let monthStart : Instant := ⟨now.year, now.month, walletMonthStartDay, 0⟩
    let monthStart :=
      if now.day < walletMonthStartDay then monthStart.addMonths (-1) else monthStart
    some (monthStart, monthStart.addMonths 1)

/-- Embedding of `GetActualTransactions` (`src/unnamed/part_000` lines 189-237) over a pure
model of the store: the scan over `wallet:<id>:in:*` and `wallet:<id>:out:*`
keys is modelled as the list `stored` of all transactions held for the wallet,
and the per-key filter keeps those with `t.After(t1) && t.Before(t2)`.
`none` models the `t2.Before(t1)` panic; I/O errors are abstracted away. -/
def GetActualTransactions (stored : List ActualTransaction) (t1 t2 : Instant) :
    Option (List ActualTransaction) :=
  if Instant.before t2 t1 then none
  else some (stored.filter (fun tx => Instant.after tx.time t1 && Instant.before tx.time t2))

/-- Go map lookup on the association-list model of `map[string]int`. -/
def mapLookup : List (String × Int) → String → Option Int
  | [], _ => none
  | (k, v) :: rest, l => if k = l then some v else mapLookup rest l

/-- Go's `matched[label] += value` on the association-list model: add to the
entry if the key is present, otherwise insert it (zero-value plus `v`). -/
def mapAdd : List (String × Int) → String → Int → List (String × Int)
  | [], k, v => [(k, v)]
  | (k1, v1) :: rest, k, v =>
      if k1 = k then (k1, v1 + v) :: rest else (k1, v1) :: mapAdd rest k v

/-- The accumulation loop of `accumulateMatchedTransactions` (`Wallet.go`
lines 146-157): fold the realized transactions left-to-right, summing values
per label for labels that are non-empty and name a planned transaction. -/
def matchActuals (labels : List String) :
    List (String × Int) → List ActualTransaction → List (String × Int)
  | m, [] => m
  | m, tx :: rest =>
      if tx.label = "" then matchActuals labels m rest
      else if labels.contains tx.label then
        matchActuals labels (mapAdd m tx.label tx.value) rest
      else matchActuals labels m rest

/-- Embedding of `accumulateMatchedTransactions` (`Wallet.go` lines 134-159): builds the
`MatchedSet`. `none` models the panic on an empty planned label. -/
def accumulateMatchedTransactions (regular_txs : List RegularTransaction)
    (actual_txs : List ActualTransaction) : Option (List (String × Int)) :=
  if regular_txs.any (fun r => r.label = "") then none
  else some (matchActuals (regular_txs.map (fun r => r.label)) [] actual_txs)

/-- The per-planned-transaction body of the loop at `Wallet.go` lines 165-190:
the contribution of one planned transaction given its matched realized sum
(if any). `none` models the sign-mismatch panic. -/
def regularContribution : Int → Option Int → Option Int
  | txValue, none => some txValue
  | txValue, some matched_amount =>
      if (0 < txValue ∧ matched_amount < 0) ∨ (txValue < 0 ∧ 0 < matched_amount) then none
      else if 0 < txValue then some matched_amount
      else if matched_amount.natAbs < txValue.natAbs then some txValue
      else some matched_amount

/-- The `totalMonthlyIncome` accumulation of `Wallet.go` lines 164-190:
sum of the contributions of all planned transactions. -/
def totalMonthlyIncome (regular_txs : List RegularTransaction)
    (matched_actual_txs : List (String × Int)) : Option Int :=
  match regular_txs with
  | [] => some 0
  | tx :: rest => do
      let c ← regularContribution tx.value (mapLookup matched_actual_txs tx.label)
      let s ← totalMonthlyIncome rest matched_actual_txs
      pure (c + s)

/-- Embedding of `calcMonthlyIncomeTillDate` (`Wallet.go` lines 161-210): the prorated
income calculator. The `float32` expression `total / days * elapsed`
(respectively `total / span`) followed by `int(...)` is modelled as the exact
rational value truncated toward zero, i.e. `Int.tdiv` of numerator by
denominator. -/
def calcMonthlyIncomeTillDate (monthStart : Nat)
    (regular_txs : List RegularTransaction)
    (matched_actual_txs : List (String × Int)) (t : Instant) : Option Int := do
  let total ← totalMonthlyIncome regular_txs matched_actual_txs
  let curDay := t.day
  if monthStart ≤ curDay then
    pure (Int.tdiv (total * ((curDay : Int) - (monthStart : Int) + 1)) ((daysInMonth t.month : Nat) : Int))
  else
    pure (Int.tdiv total
      ((31 : Int) - ((monthStart : Int) - (curDay : Int)) - ((31 : Int) - ((daysInMonth (prevMonthOf t.month) : Nat) : Int))))

/-- Embedding of `calcUnmatchedTransactionsSum` (`Wallet.go` lines 212-223): sum of
realized transactions whose label is not a key of the matched set. -/
def calcUnmatchedTransactionsSum (actual_txs : List ActualTransaction)
    (matched_actual_txs : List (String × Int)) : Int :=
  match actual_txs with
  | [] => 0
  | tx :: rest =>
      if (mapLookup matched_actual_txs tx.label).isSome then
        calcUnmatchedTransactionsSum rest matched_actual_txs
      else tx.value + calcUnmatchedTransactionsSum rest matched_actual_txs

/-- Embedding of `GetBalance` (`Wallet.go` lines 225-248) with the storage collaborator
modelled by the wallet's stored transaction list: resolve the billing window,
load the realized transactions strictly inside `(windowStart, t)`, match,
prorate, and add the unmatched sum. -/
def GetBalance (monthStart : Nat) (regular_txs : List RegularTransaction)
    (stored : List ActualTransaction) (t : Instant) : Option Int := do
  let borders ← calcCurMonthBorders monthStart t
  let actual_txs ← GetActualTransactions stored borders.1 t
  let matched_actual_txs ← accumulateMatchedTransactions regular_txs actual_txs
  let curAvailIncome ← calcMonthlyIncomeTillDate monthStart regular_txs matched_actual_txs t
  pure (curAvailIncome + calcUnmatchedTransactionsSum actual_txs matched_actual_txs)

/-- Embedding of `SetMonthStart` (`Wallet.go` lines 250-262) as explicit state passing.
The wallet's in-memory state is its `monthStart`; the value handed to
`storage.SetWalletInfo` is recorded in the returned list. The result is
`(error?, final wallet state, persisted values)`; `none` models the
out-of-range panic. -/
structure WalletState where
  monthStart : Nat
deriving DecidableEq, Repr

def SetMonthStart (w : WalletState) (date : Nat) (persistFails : Bool) :
    Option (Bool × WalletState × List Nat) :=
  if date < 1 ∨ date > 28 then none
  else
    let oldDate := w.monthStart
    let w1 : WalletState := { w with monthStart := date }
    let persisted : List Nat := [w1.monthStart]
    let err := persistFails
    let w2 := if err then { w1 with monthStart := oldDate } else w1
    some (err, w2, persisted)

/-- Embedding of `checkRegularTransactionLabelExist` (`Wallet.go` lines 28-35). -/
def checkRegularTransactionLabelExist (transactions : List RegularTransaction)
    (label : String) : Bool :=
  transactions.any (fun t => t.label == label)

/-- Outcomes of `AddRegularTransaction`, distinguishing the four exits of
`Wallet.go` lines 37-56. -/
inductive AddRegularOutcome where
  | rangeViolation
  | getError
  | duplicateLabel
  | addError
  | ok
deriving DecidableEq, Repr

/-- Storage calls `AddRegularTransaction` can make, in order. -/
inductive StorageOp where
  | getRegulars
  | addRegular
deriving DecidableEq, Repr

/-- Embedding of `AddRegularTransaction` (`Wallet.go` lines 37-56): range check, load of
the existing planned set (may fail), duplicate-label check, then the storage
write (may fail). Returns the outcome together with the storage operations
performed. -/
def AddRegularTransaction (existing : List RegularTransaction)
    (getFails addFails : Bool) (t : RegularTransaction) :
    AddRegularOutcome × List StorageOp :=
  if t.date < 1 ∨ t.date > 28 then (.rangeViolation, [])
  else if getFails then (.getError, [.getRegulars])
  else if checkRegularTransactionLabelExist existing t.label then
    (.duplicateLabel, [.getRegulars])
  else if addFails then (.addError, [.getRegulars, .addRegular])
  else (.ok, [.getRegulars, .addRegular])

/-- Modelled from the spec (§4.2): the Billing Window Resolver described in
the spec's own words - candidate start at day `monthStart` of `t`'s calendar
month at local midnight, shifted to the previous calendar month when `t`'s
day-of-month is strictly earlier than `monthStart`; the window end is exactly
one calendar month after the window start. Stated with explicit month/year
case analysis so it can be compared against `calcCurMonthBorders`. -/
def specWindowResolver (monthStart : Nat) (t : Instant) : Instant × Instant :=
  let ws : Instant :=
    if t.day < monthStart then
      (if t.month = 1 then ⟨t.year - 1, 12, monthStart, 0⟩
       else ⟨t.year, t.month - 1, monthStart, 0⟩)
    else ⟨t.year, t.month, monthStart, 0⟩
  let we : Instant :=
    if ws.month = 12 then ⟨ws.year + 1, 1, monthStart, 0⟩
    else ⟨ws.year, ws.month + 1, monthStart, 0⟩
  (ws, we)

/-- Sum of the values held in the matched map (observable of `MatchedSet`). -/
def sumMatched : List (String × Int) → Int
  | [] => 0
  | (_, v) :: rest => v + sumMatched rest

/-- Sum of the values of a list of realized transactions. -/
def sumActuals : List ActualTransaction → Int
  | [] => 0
  | tx :: rest => tx.value + sumActuals rest

/-- A label is eligible for matching when it is non-empty and names a
planned transaction (the two `continue` guards of the matcher loop). -/
def eligLabel (labels : List String) (l : String) : Bool :=
  !(l == "") && labels.contains l

/-- Sum of the values of the realized transactions satisfying `p`. -/
def sumWhere (p : ActualTransaction → Bool) : List ActualTransaction → Int
  | [] => 0
  | tx :: rest => (if p tx then tx.value else 0) + sumWhere p rest

/-- Concrete data for the C10 conservation witness: one planned expense and
two realized transactions, one matched and one unlabeled. -/
def c10_regulars : List RegularTransaction := [⟨-800, 1, "rent"⟩]

def c10_actuals : List ActualTransaction :=
  [⟨-300, ⟨2018, 1, 5, 0⟩, "rent", ""⟩, ⟨-40, ⟨2018, 1, 6, 0⟩, "", ""⟩]

/-- The wallet, planned transaction, realized transaction and reference
instant of the end-to-end scenario of C1: `monthStart = 1`, one planned
expense `rent = -800`, one realized `rent = -800` on day 15 (10:00) of
January 2018 (a 31-day month), evaluated at noon of that day. -/
def c1_regulars : List RegularTransaction := [⟨-800, 1, "rent"⟩]

def c1_tx : ActualTransaction := ⟨-800, ⟨2018, 1, 15, 36000⟩, "rent", ""⟩

def c1_t : Instant := ⟨2018, 1, 15, 43200⟩

/-- C7 counterexample data: query bounds fourteen days apart and a stored
transaction whose instant equals the lower bound `from`. -/
def c7_from : Instant := ⟨2018, 1, 1, 0⟩

def c7_to : Instant := ⟨2018, 1, 15, 0⟩

def c7_tx : ActualTransaction := ⟨5, ⟨2018, 1, 1, 0⟩, "coffee", ""⟩

/-- C1: end-to-end `GetBalance` scenario. With `monthStart = 1`, exactly one
planned transaction `{label: rent, value: -800}` and exactly one realized
transaction `{label: rent, value: -800}` dated day 15 of the current 31-day
month, evaluated on day 15 of that month: the matched set is
`{rent ↦ -800}`, `totalMonthly = -800`, the prorated figure is
`trunc(-800 * 15 / 31) = -387`, the unmatched sum is `0`, and `GetBalance`
returns exactly `-387`. -/
theorem C1_getBalance_scenario :
    accumulateMatchedTransactions c1_regulars [c1_tx] = some [(("rent" : String), (-800 : Int))]
    ∧ totalMonthlyIncome c1_regulars [(("rent" : String), (-800 : Int))] = some (-800)
    ∧ calcMonthlyIncomeTillDate 1 c1_regulars [(("rent" : String), (-800 : Int))] c1_t = some (-387)
    ∧ calcUnmatchedTransactionsSum [c1_tx] [(("rent" : String), (-800 : Int))] = 0
    ∧ GetBalance 1 c1_regulars [c1_tx] c1_t = some (-387) := by
  decide

/-- C2: expense matching rule. For a planned expense (`rv < 0`) whose label
has a matched realized sum `m` of the same sign, the contribution is
whichever of `rv` or `m` has the larger absolute magnitude. -/
theorem C2_expense_matching (rv m : Int) (h1 : rv < 0) (h2 : m < 0) :
    ∃ v, regularContribution rv (some m) = some v ∧ (v = rv ∨ v = m) ∧
      v.natAbs = max rv.natAbs m.natAbs := by
  simp only [regularContribution]
  rw [if_neg (by omega)]
  rw [if_neg (by omega)]
  by_cases h : m.natAbs < rv.natAbs
  · rw [if_pos h]
    exact ⟨rv, rfl, Or.inl rfl, by omega⟩
  · rw [if_neg h]
    exact ⟨m, rfl, Or.inr rfl, by omega⟩

/-- C2 witness: planned `-800` with realized sum `-500` contributes `-800`
(planned magnitude wins); with realized sum `-900` it contributes `-900`
(realized magnitude wins). -/
theorem C2_expense_matching_witness :
    (∃ v, regularContribution (-800) (some (-500)) = some v ∧ (v = -800 ∨ v = -500) ∧
      v.natAbs = max (Int.natAbs (-800)) (Int.natAbs (-500)))
    ∧ (∃ v, regularContribution (-800) (some (-900)) = some v ∧ (v = -800 ∨ v = -900) ∧
      v.natAbs = max (Int.natAbs (-800)) (Int.natAbs (-900))) :=
  ⟨C2_expense_matching (-800) (-500) (by decide) (by decide),
   C2_expense_matching (-800) (-900) (by decide) (by decide)⟩

/-- C3: income and no-match contribution rules. A planned transaction whose
label has no entry in the matched set contributes exactly its planned value;
a planned income (`r.value > 0`) whose label has a matched realized sum `m`
of agreeing sign contributes exactly `m`, whatever its size relative to the
plan. -/
theorem C3_income_and_nomatch (r : RegularTransaction)
    (matched : List (String × Int)) (m : Int) :
    (mapLookup matched r.label = none →
      regularContribution r.value (mapLookup matched r.label) = some r.value)
    ∧ (mapLookup matched r.label = some m → 0 < r.value → 0 ≤ m →
      regularContribution r.value (mapLookup matched r.label) = some m) := by
  constructor
  · intro h
    rw [h]
    rfl
  · intro h hv hm
    rw [h]
    simp only [regularContribution]
    rw [if_neg (by omega), if_pos hv]

/-- C3 witness: a planned income `500` with no matched entry contributes
`500`; a planned income `500` with matched realized sum `300` contributes
`300`. -/
theorem C3_income_and_nomatch_witness :
    regularContribution (500 : Int) (mapLookup [] ("salary")) = some 500
    ∧ regularContribution (500 : Int) (mapLookup [(("salary" : String), (300 : Int))] ("salary")) = some 300 :=
  ⟨(C3_income_and_nomatch ⟨500, 1, "salary"⟩ [] 0).1 rfl,
   (C3_income_and_nomatch ⟨500, 1, "salary"⟩ [(("salary" : String), (300 : Int))] 300).2 rfl
     (by decide) (by decide)⟩

/-- If some planned transaction's contribution hits the fatal path, the whole
`totalMonthlyIncome` accumulation does. -/
theorem totalMonthlyIncome_eq_none (regular_txs : List RegularTransaction)
    (matched : List (String × Int)) (r : RegularTransaction)
    (hr : r ∈ regular_txs)
    (hc : regularContribution r.value (mapLookup matched r.label) = none) :
    totalMonthlyIncome regular_txs matched = none := by
  induction regular_txs with
  | nil => cases hr
  | cons tx rest ih =>
    rcases List.mem_cons.mp hr with h | h
    · subst h
      simp [totalMonthlyIncome, hc]
    · have hrest := ih h
      simp only [totalMonthlyIncome, hrest]
      cases regularContribution tx.value (mapLookup matched tx.label) <;> simp

/-- C4: sign-mismatch fatality. For a planned transaction `r` in the list
with matched realized sum `m`, a nonzero `m` of disagreeing sign sends the
whole prorated-income calculation down the fatal invariant-violation path
(no number is returned); when `m = 0` or the signs agree, `r`'s contribution
does not take the fatal path. -/
theorem C4_sign_mismatch_fatal (regular_txs : List RegularTransaction)
    (matched : List (String × Int)) (monthStart : Nat) (t : Instant)
    (r : RegularTransaction) (m : Int)
    (hr : r ∈ regular_txs) (hm : mapLookup matched r.label = some m) :
    (((0 < r.value ∧ m < 0) ∨ (r.value < 0 ∧ 0 < m)) →
       calcMonthlyIncomeTillDate monthStart regular_txs matched t = none)
    ∧ ((m = 0 ∨ (0 < r.value ∧ 0 < m) ∨ (r.value < 0 ∧ m < 0)) →
       regularContribution r.value (mapLookup matched r.label) ≠ none) := by
  constructor
  · intro hmis
    have hc : regularContribution r.value (mapLookup matched r.label) = none := by
      rw [hm]
      simp only [regularContribution]
      rw [if_pos hmis]
    have htot := totalMonthlyIncome_eq_none regular_txs matched r hr hc
    simp [calcMonthlyIncomeTillDate, htot]
  · intro hok
    rw [hm]
    simp only [regularContribution]
    rw [if_neg (by rcases hok with h | h | h <;> omega)]
    split
    · simp
    · split <;> simp

/-- C4 witness: planned `-800` matched by realized sum `+500` is fatal;
planned `-800` matched by `-500` is not. -/
theorem C4_sign_mismatch_fatal_witness :
    (calcMonthlyIncomeTillDate 1 [⟨-800, 1, "rent"⟩] [(("rent" : String), (500 : Int))] ⟨2018, 1, 15, 0⟩ = none)
    ∧ regularContribution (-800 : Int)
        (mapLookup [(("rent" : String), (-500 : Int))] ((⟨-800, 1, "rent"⟩ : RegularTransaction)).label) ≠ none :=
  ⟨(C4_sign_mismatch_fatal [⟨-800, 1, "rent"⟩] [(("rent" : String), (500 : Int))] 1 ⟨2018, 1, 15, 0⟩
      ⟨-800, 1, "rent"⟩ 500 (by decide) (by decide)).1 (by decide),
   (C4_sign_mismatch_fatal [⟨-800, 1, "rent"⟩] [(("rent" : String), (-500 : Int))] 1 ⟨2018, 1, 15, 0⟩
      ⟨-800, 1, "rent"⟩ (-500) (by decide) (by decide)).2 (by decide)⟩

/-- The fixed day table never goes below 28 on valid months. -/
theorem daysInMonth_ge_28 (m : Nat) (h1 : 1 ≤ m) (h2 : m ≤ 12) :
    28 ≤ daysInMonth m := by
  interval_cases m <;> decide

/-- Valid months have valid predecessors. -/
theorem prevMonthOf_bounds (m : Nat) (h1 : 1 ≤ m) (h2 : m ≤ 12) :
    1 ≤ prevMonthOf m ∧ prevMonthOf m ≤ 12 := by
  interval_cases m <;> decide

/-- C5: wrap-around proration is well-defined. For `monthStart` in `[1, 28]`
and a reference instant `t` on a valid month with `1 ≤ t.day < monthStart`,
the wrapped branch divides `totalMonthly` by
`31 - (monthStart - curDay) - (31 - daysInPrevMonth)` with `daysInPrevMonth`
from the fixed table; that denominator is at least 1, so the branch returns
a (non-fatal) finite figure whenever the contribution sum itself is
non-fatal. -/
theorem C5_wraparound_proration (regular_txs : List RegularTransaction)
    (matched : List (String × Int)) (monthStart : Nat) (t : Instant)
    (total : Int)
    (h1 : 1 ≤ monthStart) (h2 : monthStart ≤ 28)
    (h3 : 1 ≤ t.day) (h4 : t.day < monthStart)
    (hm1 : 1 ≤ t.month) (hm2 : t.month ≤ 12)
    (htot : totalMonthlyIncome regular_txs matched = some total) :
    1 ≤ (31 : Int) - ((monthStart : Int) - (t.day : Int)) -
        ((31 : Int) - ((daysInMonth (prevMonthOf t.month) : Nat) : Int))
    ∧ calcMonthlyIncomeTillDate monthStart regular_txs matched t =
      some (Int.tdiv total ((31 : Int) - ((monthStart : Int) - (t.day : Int)) -
        ((31 : Int) - ((daysInMonth (prevMonthOf t.month) : Nat) : Int)))) := by
  have hpm := prevMonthOf_bounds t.month hm1 hm2
  have hdp := daysInMonth_ge_28 (prevMonthOf t.month) hpm.1 hpm.2
  constructor
  · omega
  · simp only [calcMonthlyIncomeTillDate, htot, Option.bind_eq_bind, Option.some_bind]
    rw [if_neg (by omega)]
    rfl

/-- C5 witness: `monthStart = 5`, reference day 3 of March 2018 (previous
month February, 28 days in the table): the wrapped branch runs with
denominator `26 ≥ 1` and returns a value. -/
theorem C5_wraparound_proration_witness :
    (1 : Int) ≤ 26 ∧
    calcMonthlyIncomeTillDate 5 [] [] ⟨2018, 3, 3, 0⟩ = some 0 :=
  C5_wraparound_proration [] [] 5 ⟨2018, 3, 3, 0⟩ 0 (by decide) (by decide)
    (by decide) (by decide) (by decide) (by decide) rfl

/-- Adding one calendar month to a valid instant: successor month with year
carry at December. -/
theorem Instant.addMonths_one (y : Int) (m d s : Nat) (h1 : 1 ≤ m) (h2 : m ≤ 12) :
    Instant.addMonths ⟨y, m, d, s⟩ 1 =
      if m = 12 then ⟨y + 1, 1, d, s⟩ else ⟨y, m + 1, d, s⟩ := by
  by_cases hm : m = 12
  · rw [if_pos hm]
    simp only [Instant.addMonths, Instant.mk.injEq, and_true]
    constructor <;> omega
  · rw [if_neg hm]
    simp only [Instant.addMonths, Instant.mk.injEq, and_true]
    constructor <;> omega

/-- Subtracting one calendar month from a valid instant: predecessor month
with year carry at January. -/
theorem Instant.addMonths_neg_one (y : Int) (m d s : Nat) (h1 : 1 ≤ m) (h2 : m ≤ 12) :
    Instant.addMonths ⟨y, m, d, s⟩ (-1) =
      if m = 1 then ⟨y - 1, 12, d, s⟩ else ⟨y, m - 1, d, s⟩ := by
  by_cases hm : m = 1
  · rw [if_pos hm]
    simp only [Instant.addMonths, Instant.mk.injEq, and_true]
    constructor <;> omega
  · rw [if_neg hm]
    simp only [Instant.addMonths, Instant.mk.injEq, and_true]
    constructor <;> omega

/-- C6: billing window resolver. For every `monthStart` in `[1, 28]` and
valid reference instant `t`, `calcCurMonthBorders` returns the window start
at local midnight of day `monthStart` of `t`'s calendar month when
`t.day ≥ monthStart`, and of the previous calendar month when
`t.day < monthStart`; the window end is exactly one calendar month after the
window start (both as described by the spec-side `specWindowResolver`). -/
theorem C6_billing_window (monthStart : Nat) (t : Instant)
    (h1 : 1 ≤ monthStart) (h2 : monthStart ≤ 28)
    (hm1 : 1 ≤ t.month) (hm2 : t.month ≤ 12) :
    calcCurMonthBorders monthStart t = some (specWindowResolver monthStart t) := by
  obtain ⟨y, m, d, s⟩ := t
  simp only at hm1 hm2
  simp only [calcCurMonthBorders, specWindowResolver, Instant.addMonths]
  rw [if_neg (by omega)]
  split_ifs <;> simp_all <;> omega

/-- C6 witness: `monthStart = 5` evaluated on January 3, 2018 (before the
start day): the window runs from December 5, 2017 to January 5, 2018. -/
theorem C6_billing_window_witness :
    calcCurMonthBorders 5 ⟨2018, 1, 3, 0⟩ = some (specWindowResolver 5 ⟨2018, 1, 3, 0⟩) :=
  C6_billing_window 5 ⟨2018, 1, 3, 0⟩ (by decide) (by decide) (by decide) (by decide)

/-- C7 counterexample: the claim's half-open window `[from, to)` would make
`GetActualTransactions` return a transaction whose instant equals `from`,
but the code's filter (`t.After(t1) && t.Before(t2)`) excludes it: with
`from ≤ to` and a store holding exactly one transaction dated exactly
`from`, the result is the empty list. -/
theorem C7_half_open_counterexample :
    Instant.before c7_from c7_to = true ∧ c7_tx.time = c7_from ∧
    GetActualTransactions [c7_tx] c7_from c7_to = some [] := by
  decide

/-- C7 (amended): the realized-transaction query window is open at both
ends. For `from ≤ to`, `GetActualTransactions` returns exactly the stored
transactions whose instant lies strictly inside `(from, to)`: a transaction
whose instant equals `from` is excluded, as is one whose instant equals
`to`. -/
theorem C7_open_interval (stored : List ActualTransaction) (t1 t2 : Instant)
    (h : Instant.before t2 t1 = false) :
    ∃ res, GetActualTransactions stored t1 t2 = some res ∧
      ∀ tx, tx ∈ res ↔ tx ∈ stored ∧
        Instant.after tx.time t1 = true ∧ Instant.before tx.time t2 = true := by
  refine ⟨stored.filter (fun tx => Instant.after tx.time t1 && Instant.before tx.time t2), ?_, ?_⟩
  · simp [GetActualTransactions, h]
  · intro tx
    simp [List.mem_filter]

/-- C7 witness: a transaction strictly inside the window is returned. -/
theorem C7_open_interval_witness :
    ∃ res, GetActualTransactions [⟨5, ⟨2018, 1, 2, 0⟩, "coffee", ""⟩] c7_from c7_to = some res ∧
      ∀ tx, tx ∈ res ↔ tx ∈ [⟨5, ⟨2018, 1, 2, 0⟩, "coffee", ""⟩] ∧
        Instant.after tx.time c7_from = true ∧ Instant.before tx.time c7_to = true :=
  C7_open_interval [⟨5, ⟨2018, 1, 2, 0⟩, "coffee", ""⟩] c7_from c7_to (by decide)

/-- C8: `SetMonthStart` for a day in `[1, 28]` hands exactly the new value to
the persistence layer during the call; when persistence fails the call
returns the error with the in-memory `monthStart` rolled back to its
previous value, and when it succeeds the committed `monthStart` is the new
day. -/
theorem C8_setMonthStart (w : WalletState) (date : Nat) (persistFails : Bool)
    (h1 : 1 ≤ date) (h2 : date ≤ 28) :
    ∃ w2, SetMonthStart w date persistFails = some (persistFails, w2, [date]) ∧
      (persistFails = true → w2.monthStart = w.monthStart) ∧
      (persistFails = false → w2.monthStart = date) := by
  unfold SetMonthStart
  rw [if_neg (by omega)]
  cases persistFails
  · exact ⟨_, rfl, by simp, fun _ => rfl⟩
  · exact ⟨_, rfl, fun _ => rfl, by simp⟩

/-- C8 witness: setting day 10 on a wallet at day 3, once with a failing
persistence layer (rolled back to 3) and once with a succeeding one
(committed at 10). -/
theorem C8_setMonthStart_witness :
    (∃ w2, SetMonthStart ⟨3⟩ 10 true = some (true, w2, [10]) ∧
      (true = true → w2.monthStart = (⟨3⟩ : WalletState).monthStart) ∧
      (true = false → w2.monthStart = 10))
    ∧ (∃ w2, SetMonthStart ⟨3⟩ 10 false = some (false, w2, [10]) ∧
      (false = true → w2.monthStart = (⟨3⟩ : WalletState).monthStart) ∧
      (false = false → w2.monthStart = 10)) :=
  ⟨C8_setMonthStart ⟨3⟩ 10 true (by decide) (by decide),
   C8_setMonthStart ⟨3⟩ 10 false (by decide) (by decide)⟩

/-- C9: registry date-range validation. An out-of-range `date` (below 1 or
above 28) is rejected with the range-violation error before any storage
operation; for in-range boundary dates 1 and 28, when the load succeeds, no
existing planned transaction shares the label, and the write succeeds, the
add succeeds having performed the read and the write. -/
theorem C9_addRegular_range (existing : List RegularTransaction)
    (getFails addFails : Bool) (t : RegularTransaction) :
    (t.date < 1 ∨ t.date > 28 →
      AddRegularTransaction existing getFails addFails t = (.rangeViolation, []))
    ∧ ((t.date = 1 ∨ t.date = 28) → getFails = false → addFails = false →
      checkRegularTransactionLabelExist existing t.label = false →
      AddRegularTransaction existing getFails addFails t =
        (.ok, [.getRegulars, .addRegular])) := by
  constructor
  · intro h
    unfold AddRegularTransaction
    rw [if_pos h]
  · intro hd hg ha hl
    subst hg
    subst ha
    unfold AddRegularTransaction
    rw [if_neg (by omega)]
    simp [hl]

/-- C9 witness: dates 0 and 29 are rejected without storage operations;
dates 1 and 28 are added (one read, one write) on a wallet with no
duplicate label and working storage. -/
theorem C9_addRegular_range_witness :
    (AddRegularTransaction [] false false ⟨100, 0, "rent"⟩ = (.rangeViolation, []))
    ∧ (AddRegularTransaction [] false false ⟨100, 29, "rent"⟩ = (.rangeViolation, []))
    ∧ (AddRegularTransaction [] false false ⟨100, 1, "rent"⟩ = (.ok, [.getRegulars, .addRegular]))
    ∧ (AddRegularTransaction [] false false ⟨100, 28, "rent"⟩ = (.ok, [.getRegulars, .addRegular])) :=
  ⟨(C9_addRegular_range [] false false ⟨100, 0, "rent"⟩).1 (by decide),
   (C9_addRegular_range [] false false ⟨100, 29, "rent"⟩).1 (by decide),
   (C9_addRegular_range [] false false ⟨100, 1, "rent"⟩).2 (by decide) rfl rfl (by decide),
   (C9_addRegular_range [] false false ⟨100, 28, "rent"⟩).2 (by decide) rfl rfl (by decide)⟩

/-- One step of the matcher loop, phrased through `eligLabel`. -/
theorem matchActuals_cons (labels : List String) (m : List (String × Int))
    (tx : ActualTransaction) (rest : List ActualTransaction) :
    matchActuals labels m (tx :: rest) =
      matchActuals labels
        (if eligLabel labels tx.label = true then mapAdd m tx.label tx.value else m) rest := by
  simp only [matchActuals]
  by_cases h1 : tx.label = ""
  · rw [if_pos h1]
    have he : eligLabel labels tx.label = false := by simp [eligLabel, h1]
    rw [he]
    simp
  · rw [if_neg h1]
    by_cases h2 : labels.contains tx.label = true
    · rw [if_pos h2]
      have he : eligLabel labels tx.label = true := by
        simp [eligLabel, h1]
        simpa using h2
      rw [he]
      simp
    · rw [if_neg h2]
      have he : eligLabel labels tx.label = false := by
        simp only [eligLabel]
        simp [h2]
        exact fun _ => by simpa using h2
      rw [he]
      simp

/-- Lemma: `mapAdd` grows the total of the map's values by exactly the added value. -/
theorem sumMatched_mapAdd (m : List (String × Int)) (k : String) (v : Int) :
    sumMatched (mapAdd m k v) = sumMatched m + v := by
  induction m with
  | nil => simp [mapAdd, sumMatched]
  | cons p rest ih =>
    obtain ⟨k1, v1⟩ := p
    by_cases h : k1 = k
    · simp only [mapAdd, if_pos h, sumMatched]
      ring
    · simp only [mapAdd, if_neg h, sumMatched, ih]
      ring

/-- Lemma: `mapAdd` creates or keeps exactly the keys `k` and those already present. -/
theorem mapLookup_mapAdd_isSome (m : List (String × Int)) (k l : String) (v : Int) :
    (mapLookup (mapAdd m k v) l).isSome = true ↔
      k = l ∨ (mapLookup m l).isSome = true := by
  induction m with
  | nil => by_cases h : k = l <;> simp [mapAdd, mapLookup, h]
  | cons p rest ih =>
    obtain ⟨k1, v1⟩ := p
    simp only [mapAdd]
    by_cases h1 : k1 = k
    · rw [if_pos h1]
      subst h1
      by_cases h2 : k1 = l <;> simp [mapLookup, h2]
    · rw [if_neg h1]
      by_cases h2 : k1 = l
      · simp [mapLookup, h2]
      · simp [mapLookup, h2, ih]

/-- The total of the matched map built by the matcher is the sum of the
values of the eligible realized transactions. -/
theorem sumMatched_matchActuals (labels : List String)
    (actual_txs : List ActualTransaction) :
    ∀ m, sumMatched (matchActuals labels m actual_txs) =
      sumMatched m + sumWhere (fun tx => eligLabel labels tx.label) actual_txs := by
  induction actual_txs with
  | nil =>
    intro m
    simp [matchActuals, sumWhere]
  | cons tx rest ih =>
    intro m
    rw [matchActuals_cons]
    by_cases h : eligLabel labels tx.label = true
    · rw [if_pos h, ih, sumMatched_mapAdd]
      simp only [sumWhere, if_pos h]
      ring
    · rw [if_neg h, ih]
      simp only [sumWhere, if_neg h]
      ring

/-- A label is a key of the matcher's output iff it was already a key of the
accumulator or some eligible realized transaction carries it. -/
theorem mapLookup_matchActuals_isSome (labels : List String)
    (actual_txs : List ActualTransaction) (l : String) :
    ∀ m, (mapLookup (matchActuals labels m actual_txs) l).isSome = true ↔
      ((mapLookup m l).isSome = true ∨
        ∃ tx ∈ actual_txs, tx.label = l ∧ eligLabel labels tx.label = true) := by
  induction actual_txs with
  | nil =>
    intro m
    simp [matchActuals]
  | cons tx rest ih =>
    intro m
    rw [matchActuals_cons]
    by_cases h : eligLabel labels tx.label = true
    · rw [if_pos h, ih, mapLookup_mapAdd_isSome]
      constructor
      · rintro ((heq | hm) | ⟨tx2, htx2, hl2, he2⟩)
        · exact Or.inr ⟨tx, List.mem_cons_self tx rest, heq, h⟩
        · exact Or.inl hm
        · exact Or.inr ⟨tx2, List.mem_cons_of_mem tx htx2, hl2, he2⟩
      · rintro (hm | ⟨tx2, htx2, hl2, he2⟩)
        · exact Or.inl (Or.inr hm)
        · rcases List.mem_cons.mp htx2 with heq | hmem
          · subst heq
            exact Or.inl (Or.inl hl2)
          · exact Or.inr ⟨tx2, hmem, hl2, he2⟩
    · rw [if_neg h, ih]
      constructor
      · rintro (hm | ⟨tx2, htx2, hl2, he2⟩)
        · exact Or.inl hm
        · exact Or.inr ⟨tx2, List.mem_cons_of_mem tx htx2, hl2, he2⟩
      · rintro (hm | ⟨tx2, htx2, hl2, he2⟩)
        · exact Or.inl hm
        · rcases List.mem_cons.mp htx2 with heq | hmem
          · subst heq
            exact absurd he2 h
          · exact Or.inr ⟨tx2, hmem, hl2, he2⟩

/-- For a realized transaction of the matched list itself, being a key of
the final matched map is exactly eligibility of its label. -/
theorem mapLookup_final (labels : List String)
    (actual_txs : List ActualTransaction) (tx : ActualTransaction)
    (htx : tx ∈ actual_txs) :
    (mapLookup (matchActuals labels [] actual_txs) tx.label).isSome =
      eligLabel labels tx.label := by
  cases h : eligLabel labels tx.label
  · cases hsome : (mapLookup (matchActuals labels [] actual_txs) tx.label).isSome
    · rfl
    · exfalso
      rcases (mapLookup_matchActuals_isSome labels actual_txs tx.label []).mp hsome with
        hm | ⟨tx2, _, hl2, he2⟩
      · simp [mapLookup] at hm
      · rw [hl2] at he2
        rw [h] at he2
        cases he2
  · exact (mapLookup_matchActuals_isSome labels actual_txs tx.label []).mpr
      (Or.inr ⟨tx, htx, rfl, h⟩)

/-- The unmatched-sum loop, given that key-membership in the matched map
agrees with label eligibility on every element, is the sum over the
non-eligible realized transactions. -/
theorem calcUnmatched_eq_sumWhere (labels : List String)
    (matched : List (String × Int)) :
    ∀ acts : List ActualTransaction,
      (∀ tx ∈ acts, (mapLookup matched tx.label).isSome = eligLabel labels tx.label) →
      calcUnmatchedTransactionsSum acts matched =
        sumWhere (fun tx => !eligLabel labels tx.label) acts := by
  intro acts
  induction acts with
  | nil =>
    intro _
    simp [calcUnmatchedTransactionsSum, sumWhere]
  | cons tx rest ih =>
    intro h
    have hhead := h tx (List.mem_cons_self tx rest)
    have hrest := ih (fun tx2 htx2 => h tx2 (List.mem_cons_of_mem tx htx2))
    simp only [calcUnmatchedTransactionsSum, sumWhere, hhead, hrest]
    by_cases he : eligLabel labels tx.label = true <;> simp [he]

/-- Splitting a sum of realized values by a boolean predicate. -/
theorem sumWhere_split (p : ActualTransaction → Bool)
    (acts : List ActualTransaction) :
    sumWhere p acts + sumWhere (fun tx => !p tx) acts = sumActuals acts := by
  induction acts with
  | nil => simp [sumWhere, sumActuals]
  | cons tx rest ih =>
    cases h : p tx <;> simp only [sumWhere, sumActuals, h] <;> simp <;> omega

/-- C10: conservation of realized value. When every planned transaction
carries a non-empty label, the matcher succeeds, and the sum of all values
in the resulting `MatchedSet` plus the unmatched sum over the same lists
equals the sum of the values of all realized transactions; moreover an
empty-labeled realized transaction is never a key of the matched map (it
always falls in the unmatched total). -/
theorem C10_conservation (regular_txs : List RegularTransaction)
    (actual_txs : List ActualTransaction)
    (h : ∀ r ∈ regular_txs, r.label ≠ "") :
    ∃ m, accumulateMatchedTransactions regular_txs actual_txs = some m ∧
      sumMatched m + calcUnmatchedTransactionsSum actual_txs m = sumActuals actual_txs ∧
      ∀ tx ∈ actual_txs, tx.label = "" → mapLookup m tx.label = none := by
  have hany : (regular_txs.any fun r => r.label = "") = false := by
    simp only [List.any_eq_false, decide_eq_true_eq]
    exact h
  refine ⟨matchActuals (regular_txs.map fun r => r.label) [] actual_txs, ?_, ?_, ?_⟩
  · simp [accumulateMatchedTransactions, hany]
  · have hsum := sumMatched_matchActuals (regular_txs.map fun r => r.label) actual_txs []
    have hun := calcUnmatched_eq_sumWhere (regular_txs.map fun r => r.label)
      (matchActuals (regular_txs.map fun r => r.label) [] actual_txs) actual_txs
      (fun tx htx => mapLookup_final (regular_txs.map fun r => r.label) actual_txs tx htx)
    rw [hsum, hun]
    have hsplit := sumWhere_split
      (fun tx => eligLabel (regular_txs.map fun r => r.label) tx.label) actual_txs
    simp only [sumMatched]
    omega
  · intro tx htx hlabel
    have hfin := mapLookup_final (regular_txs.map fun r => r.label) actual_txs tx htx
    rw [hlabel] at hfin ⊢
    have he : eligLabel (regular_txs.map fun r => r.label) ("") = false := by
      simp [eligLabel]
    rw [he] at hfin
    cases ho : mapLookup (matchActuals (regular_txs.map fun r => r.label) [] actual_txs) ("") with
    | none => rfl
    | some v =>
      rw [ho] at hfin
      cases hfin

/-- C10 witness: one planned expense `rent`, one realized `rent` payment and
one unlabeled realized payment: `-300` lands in the matched map, `-40` in
the unmatched sum, and together they equal the realized total `-340`. -/
theorem C10_conservation_witness :
    ∃ m, accumulateMatchedTransactions c10_regulars c10_actuals = some m ∧
      sumMatched m + calcUnmatchedTransactionsSum c10_actuals m = sumActuals c10_actuals ∧
      ∀ tx ∈ c10_actuals, tx.label = "" → mapLookup m tx.label = none :=
  C10_conservation c10_regulars c10_actuals (by decide)
